import Mathlib

/-!
Verification of the Identify subsystem of js-libp2p (src/identify/index.ts),
shallowly embedded in Lean 4.

Peer ids are modelled as naturals, byte strings as lists of naturals.
External collaborators (multiaddr parsing, peer-id derivation from a public
key, envelope opening/certification, the peer store's consume policy) are
parameters collected in an `Env` structure; the peer store and address
manager are explicit state threaded through the functions translated from
the source.
-/

namespace Identify

/-- Byte strings (public keys, raw multiaddrs, envelopes) as lists of naturals. -/
abbrev Bytes := List Nat

/-- Error codes of the identify subsystem (src/errors.ts `codes` referenced
from src/identify/index.ts). -/
inductive ErrCode where
  | ERR_CONNECTION_ENDED
  | ERR_MESSAGE_TOO_LARGE
  | ERR_INVALID_MESSAGE
  | ERR_MISSING_PUBLIC_KEY
  | ERR_INVALID_PEER
  | ERR_INVALID_SIGNATURE
deriving DecidableEq, Repr

/-- An error surfaced by `identify`: either a `CodeError` with one of the
taxonomy codes thrown by the identify code itself, or an error thrown by a
collaborator (e.g. `peerIdFromKeys`) that carries no identify error code. -/
inductive IdErr where
  | code (c : ErrCode)
  | other
deriving DecidableEq, Repr

/-- A certified record envelope (`RecordEnvelope` wrapping a `PeerRecord`):
the enclosed peer id, the record's sequence number, and the record's
multiaddrs. -/
structure Envelope where
  peerId : Nat
  seq : Nat
  addrs : List Bytes
deriving DecidableEq, Repr

/-- The decoded Identify protobuf message (src/identify/pb/message.proto):
all fields optional on the wire; `listenAddrs` and `protocols` decode to
(possibly empty) lists. -/
structure IdentifyMsg where
  protocolVersion : Option String
  agentVersion : Option String
  publicKey : Option Bytes
  listenAddrs : List Bytes
  observedAddr : Option Bytes
  protocols : List String
  signedPeerRecord : Option Bytes
deriving DecidableEq, Repr

/-- The peer store: address book, protocol book and metadata book, each a map
keyed by peer id (metadata additionally by key string). -/
structure PeerStore where
  addressBook : Nat → List Bytes
  protoBook : Nat → List String
  metadataBook : Nat → String → Option String

/-- The address manager's observed-address state (`getObservedAddrs` /
`addObservedAddr`). -/
structure AddressManager where
  observedAddrs : List Bytes
deriving DecidableEq, Repr

/-- External collaborators of the identify code, consumed through narrow
contracts:
* `parseMA` — `multiaddr(bytes)`: `none` models a thrown parse error;
* `peerIdFromKeys` — peer-id derivation from a public key: `none` models a
  thrown error, which carries no identify error code;
* `openAndCertify` — `RecordEnvelope.openAndCertify(bytes, PeerRecord.DOMAIN)`:
  `none` models a thrown error (bad envelope or signature);
* `acceptRecord` — the address book's consume policy: whether
  `consumePeerRecord` accepts the envelope given the current store
  (typically: sequence number strictly greater than the stored one). -/
structure Env where
  parseMA : Bytes → Option Bytes
  peerIdFromKeys : Bytes → Option Nat
  openAndCertify : Bytes → Option Envelope
  acceptRecord : Envelope → PeerStore → Bool

/-- `addressBook.set(p, addrs)`. -/
def PeerStore.setAddrs (ps : PeerStore) (p : Nat) (addrs : List Bytes) : PeerStore :=
  { ps with addressBook := fun q => if q = p then addrs else ps.addressBook q }

/-- `protoBook.set(p, protos)`. -/
def PeerStore.setProtocols (ps : PeerStore) (p : Nat) (protos : List String) : PeerStore :=
  { ps with protoBook := fun q => if q = p then protos else ps.protoBook q }

/-- `metadataBook.setValue(p, key, value)` (values are raw byte strings of the
given text; modelled as the text itself). -/
def PeerStore.setMetadata (ps : PeerStore) (p : Nat) (key value : String) : PeerStore :=
  { ps with metadataBook := fun q k => if q = p ∧ k = key then some value else ps.metadataBook q k }

/-- Modelled from the spec: the address book's `consume_peer_record` contract
(`@libp2p/peer-store`, a collaborator whose code is not under src). If the
consume policy accepts the envelope, the envelope's addresses are stored
under the envelope's own peer id and `true` is returned; otherwise the store
is unchanged and `false` is returned. -/
def consumePeerRecord (E : Env) (envl : Envelope) (ps : PeerStore) : Bool × PeerStore :=
  if E.acceptRecord envl ps then
    (true, ps.setAddrs envl.peerId envl.addrs)
  else
    (false, ps)

/-- `IdentifyService.getCleanMultiaddr`: converts the bytes to a multiaddr if
possible, `none` on absence, emptiness or parse failure. -/
def getCleanMultiaddr (E : Env) (addr : Option Bytes) : Option Bytes :=
  match addr with
  | some a => if a.length > 0 then E.parseMA a else none
  | none => none

/-- `listenAddrs.map((addr) => multiaddr(addr))` inside the legacy path's
try/catch: the map throws (and the whole update is skipped) as soon as any
single entry fails to parse. -/
def parseListenAddrs (E : Env) (addrs : List Bytes) : Option (List Bytes) :=
  addrs.mapM E.parseMA

/-- The two metadata writes both the envelope path and the legacy path
perform: `AgentVersion` then `ProtocolVersion`, each only when present. -/
def applyMetadata (msg : IdentifyMsg) (id : Nat) (ps : PeerStore) : PeerStore :=
  let ps1 := match msg.agentVersion with
    | some v => ps.setMetadata id "AgentVersion" v
    | none => ps
  match msg.protocolVersion with
  | some v => ps1.setMetadata id "ProtocolVersion" v
  | none => ps1

/-- `getObservedAddrs().length < (maxObservedAddresses ?? Infinity)`:
`none` models the absent option, i.e. `Infinity`. -/
def belowCap (cfg : Option Nat) (n : Nat) : Bool :=
  match cfg with
  | some c => decide (n < c)
  | none => true

/-- The legacy tail of `IdentifyService.identify` (src lines 362-388): set
`listenAddrs` on the address book (whole update skipped if any entry fails to
parse), set the protocols, write the metadata, then offer the observed
address to the address manager when below the cap. -/
def identifyLegacy (E : Env) (cfg : Option Nat) (id : Nat) (msg : IdentifyMsg)
    (ps : PeerStore) (am : AddressManager) : PeerStore × AddressManager :=
  let ps1 := match parseListenAddrs E msg.listenAddrs with
    | some addrs => ps.setAddrs id addrs
    | none => ps
  let ps2 := ps1.setProtocols id msg.protocols
  let ps3 := applyMetadata msg id ps2
  let am2 := match getCleanMultiaddr E msg.observedAddr with
    | some oa =>
      if belowCap cfg am.observedAddrs.length then
        { observedAddrs := am.observedAddrs ++ [oa] }
      else am
    | none => am
  (ps3, am2)

/-- `IdentifyService.identify` after the message has been read and decoded
(src lines 300-389). Returns the outcome together with the resulting peer
store and address manager; every error is thrown before any store write, so
error outcomes carry the input state unchanged. On the envelope path, a
mismatched envelope peer id throws `ERR_INVALID_PEER`, but that throw is
inside the try whose catch falls back to the legacy path. When the envelope
is consumed the function returns early: the observed-address handling at the
end of the legacy tail is not reached. -/
def identify (E : Env) (localPeer remotePeer : Nat) (cfg : Option Nat)
    (msg : IdentifyMsg) (ps : PeerStore) (am : AddressManager) :
    Except IdErr Unit × PeerStore × AddressManager :=
  match msg.publicKey with
  | none => (.error (.code .ERR_MISSING_PUBLIC_KEY), ps, am)
  | some pk =>
    match E.peerIdFromKeys pk with
    | none => (.error .other, ps, am)
    | some id =>
      if remotePeer ≠ id then (.error (.code .ERR_INVALID_PEER), ps, am)
      else if localPeer = id then (.error (.code .ERR_INVALID_PEER), ps, am)
      else
        match msg.signedPeerRecord with
        | some spr =>
          match E.openAndCertify spr with
          | some envl =>
            if envl.peerId = id then
              let res := consumePeerRecord E envl ps
              if res.1 then
                (.ok (), applyMetadata msg id (res.2.setProtocols id msg.protocols), am)
              else
                let st := identifyLegacy E cfg id msg res.2 am
                (.ok (), st.1, st.2)
            else
              let st := identifyLegacy E cfg id msg ps am
              (.ok (), st.1, st.2)
          | none =>
            let st := identifyLegacy E cfg id msg ps am
            (.ok (), st.1, st.2)
        | none =>
          let st := identifyLegacy E cfg id msg ps am
          (.ok (), st.1, st.2)

/-- The legacy tail of `IdentifyService._handlePush` (src lines 516-528):
set `listenAddrs` on the address book (whole update skipped when any entry
fails to parse), then set the protocols. -/
def pushLegacy (E : Env) (id : Nat) (msg : IdentifyMsg) (ps : PeerStore) : PeerStore :=
  let ps1 := match parseListenAddrs E msg.listenAddrs with
    | some addrs => ps.setAddrs id addrs
    | none => ps
  ps1.setProtocols id msg.protocols

/-- `IdentifyService._handlePush` after the message has been decoded
(src lines 486-531). A push from our own peer id is dropped. Unlike
`identify`, the envelope's peer id is never compared with the connection's
remote peer: a certified envelope is offered to `consumePeerRecord` directly,
which stores it under the envelope's own peer id. -/
def handlePush (E : Env) (localPeer remotePeer : Nat) (msg : IdentifyMsg)
    (ps : PeerStore) : PeerStore :=
  if localPeer = remotePeer then ps
  else
    match msg.signedPeerRecord with
    | some spr =>
      match E.openAndCertify spr with
      | some envl =>
        let res := consumePeerRecord E envl ps
        if res.1 then res.2.setProtocols remotePeer msg.protocols
        else pushLegacy E remotePeer msg res.2
      | none => pushLegacy E remotePeer msg ps
    | none => pushLegacy E remotePeer msg ps

/-- `IdentifyService._handleIdentify` line 405: the responder's public-key
field is the host's public key, or zero-length bytes when the host has none. -/
def responderPublicKey (localPublicKey : Option Bytes) : Bytes :=
  localPublicKey.getD []

/-- `MAX_IDENTIFY_MESSAGE_SIZE` (src line 36). -/
def MAX_IDENTIFY_MESSAGE_SIZE : Nat := 1024 * 8

/-- `this.init.maxIdentifyMessageSize ?? MAX_IDENTIFY_MESSAGE_SIZE`
(src lines 270 and 465). -/
def effectiveMaxMsgSize (cfg : Option Nat) : Nat :=
  cfg.getD MAX_IDENTIFY_MESSAGE_SIZE

/-- An unsigned LEB128 varint read from the head of a byte stream: the value
and the remaining bytes, `none` if the stream ends inside the varint. -/
def readVarint : Bytes → Option (Nat × Bytes)
  | [] => none
  | b :: rest =>
    if b < 128 then some (b, rest)
    else
      match readVarint rest with
      | some (v, rest2) => some ((b - 128) + 128 * v, rest2)
      | none => none

/-- Modelled from the spec: `decode_one(stream, max_len)` of §4.2 — the
length-prefixed framing the source delegates to `lp.decode({ maxDataLength })`
of the it-length-prefixed dependency, whose code is not under src. Read a
varint; a declared length exceeding `max_len` fails fast with
`ERR_MESSAGE_TOO_LARGE` before the payload is consumed; otherwise read
exactly that many bytes and return them with the rest of the stream. -/
def decodeOne (maxLen : Nat) (stream : Bytes) : Except ErrCode (Bytes × Bytes) :=
  match readVarint stream with
  | none => .error .ERR_CONNECTION_ENDED
  | some (len, rest) =>
    if len > maxLen then .error .ERR_MESSAGE_TOO_LARGE
    else if rest.length < len then .error .ERR_CONNECTION_ENDED
    else .ok (rest.take len, rest.drop len)

/-- The registration and subscription state of the `IdentifyService`:
the registrar's handled protocol strings, the `started` flag, and the three
event listeners installed by the constructor. -/
structure ServiceState where
  registered : List String
  started : Bool
  hasConnectListener : Bool
  hasMultiaddrsListener : Bool
  hasProtocolsListener : Bool
deriving DecidableEq, Repr

/-- Modelled from the spec: the identify protocol string
`"/<prefix>/id/<IDENTIFY_VERSION>"`; the name and version constants live in
src/identify/consts.ts, which is not under src. -/
def identifyProtocolStr (pfx idVersion : String) : String :=
  "/" ++ pfx ++ "/id/" ++ idVersion

/-- Modelled from the spec: the identify-push protocol string
`"/<prefix>/id/push/<PUSH_VERSION>"`; the name and version constants live in
src/identify/consts.ts, which is not under src. -/
def identifyPushProtocolStr (pfx pushVersion : String) : String :=
  "/" ++ pfx ++ "/id/push/" ++ pushVersion

/-- The `IdentifyService` constructor's effect on the service state: nothing
registered, not started, and the three event listeners (`peer:connect`,
`change:multiaddrs`, `change:protocols`) installed; no code ever removes
them. -/
def constructService : ServiceState :=
  { registered := []
    started := false
    hasConnectListener := true
    hasMultiaddrsListener := true
    hasProtocolsListener := true }

/-- `IdentifyService.start` (src lines 134-160): a no-op when already
started, otherwise registers both protocol handlers with the registrar and
sets `started`. (It also writes the host's AgentVersion/ProtocolVersion for
the local peer to the metadata book, which no claim here depends on.) -/
def startService (pfx idVersion pushVersion : String) (s : ServiceState) : ServiceState :=
  if s.started then s
  else
    { s with
      registered := s.registered ++
        [identifyProtocolStr pfx idVersion, identifyPushProtocolStr pfx pushVersion]
      started := true }

/-- `IdentifyService.stop` (src lines 162-167): unhandle both protocol
strings and clear `started`. The constructor's event listeners are not
removed. -/
def stopService (pfx idVersion pushVersion : String) (s : ServiceState) : ServiceState :=
  { s with
    registered := (s.registered.filter (· ≠ identifyProtocolStr pfx idVersion)).filter
      (· ≠ identifyPushProtocolStr pfx pushVersion)
    started := false }

/-- Whether a `peer:connect` event makes the service run an identify
exchange: the constructor's listener (src lines 106-109) calls
`this.identify(connection)` unconditionally whenever it is installed; there
is no `started` guard. -/
def triggersIdentify (s : ServiceState) : Bool :=
  s.hasConnectListener

/-- Whether a `change:multiaddrs` event for `evtPeer` results in a push: the
listener (src lines 112-118) fires for the local peer and calls
`pushToPeerStore`, which returns immediately when the service is not started
(src lines 220-224). -/
def triggersPushOnMultiaddrsChange (s : ServiceState) (localPeer evtPeer : Nat) : Bool :=
  s.hasMultiaddrsListener && (localPeer == evtPeer) && s.started

/-- Whether a `change:protocols` event for `evtPeer` results in a push: the
listener (src lines 121-127) fires for the local peer and calls
`pushToPeerStore`, which returns immediately when the service is not started. -/
def triggersPushOnProtocolsChange (s : ServiceState) (localPeer evtPeer : Nat) : Bool :=
  s.hasProtocolsListener && (localPeer == evtPeer) && s.started

/-- One identify exchange of a sequence: the connection's remote peer and the
decoded message, applied to the peer store and address manager. -/
def identifyStep (E : Env) (localPeer : Nat) (cfg : Option Nat)
    (input : Nat × IdentifyMsg) (st : PeerStore × AddressManager) :
    PeerStore × AddressManager :=
  (identify E localPeer input.1 cfg input.2 st.1 st.2).2

/-- A sequence of identify exchanges run in order. -/
def runIdentifies (E : Env) (localPeer : Nat) (cfg : Option Nat) :
    List (Nat × IdentifyMsg) → PeerStore × AddressManager → PeerStore × AddressManager
  | [], st => st
  | i :: rest, st => runIdentifies E localPeer cfg rest (identifyStep E localPeer cfg i st)

/-- An identify message with every optional field absent and every list
empty; concrete messages below override single fields. -/
def baseMsg : IdentifyMsg :=
  { protocolVersion := none
    agentVersion := none
    publicKey := none
    listenAddrs := []
    observedAddr := none
    protocols := []
    signedPeerRecord := none }

/-- An empty peer store. -/
def emptyStore : PeerStore :=
  { addressBook := fun _ => []
    protoBook := fun _ => []
    metadataBook := fun _ _ => none }

/-- An address manager holding no observed addresses. -/
def emptyAM : AddressManager := { observedAddrs := [] }

/-- A concrete environment used to evaluate the model at specific inputs:
parsing fails exactly on the bytes `[9, 9]`; peer-id derivation fails on
zero-length keys and otherwise returns the key's first byte;
`[7]` certifies to an envelope for peer 2 (seq 1), `[8]` to an envelope for
peer 5 (seq 1), `[6]` to an envelope for peer 2 with seq 0, everything else
fails; the consume policy accepts exactly positive sequence numbers. -/
def testEnv : Env :=
  { parseMA := fun b => if b = [9, 9] then none else some b
    peerIdFromKeys := fun k => if k = [] then none else k.head?
    openAndCertify := fun b =>
      if b = [7] then some { peerId := 2, seq := 1, addrs := [[3]] }
      else if b = [8] then some { peerId := 5, seq := 1, addrs := [[3]] }
      else if b = [6] then some { peerId := 2, seq := 0, addrs := [[3]] }
      else none
    acceptRecord := fun envl _ => decide (0 < envl.seq) }

lemma addressBook_setProtocols (ps : PeerStore) (p : Nat) (protos : List String) :
    (ps.setProtocols p protos).addressBook = ps.addressBook := rfl

lemma addressBook_setMetadata (ps : PeerStore) (p : Nat) (key value : String) :
    (ps.setMetadata p key value).addressBook = ps.addressBook := rfl

lemma addressBook_applyMetadata (msg : IdentifyMsg) (id : Nat) (ps : PeerStore) :
    (applyMetadata msg id ps).addressBook = ps.addressBook := by
  unfold applyMetadata
  cases msg.agentVersion <;> cases msg.protocolVersion <;> rfl

lemma addressBook_setAddrs_same (ps : PeerStore) (p : Nat) (addrs : List Bytes) :
    (ps.setAddrs p addrs).addressBook p = addrs := by
  simp [PeerStore.setAddrs]

lemma addressBook_setAddrs_other (ps : PeerStore) (p q : Nat) (addrs : List Bytes)
    (h : q ≠ p) : (ps.setAddrs p addrs).addressBook q = ps.addressBook q := by
  simp [PeerStore.setAddrs, h]

/-- C2: if the peer id derived from the message's public key differs from the
connection's remote peer, identify fails with `ERR_INVALID_PEER` and the peer
store and address manager are returned unchanged (the error is thrown before
any write). -/
theorem identify_peer_mismatch_no_writes (E : Env) (localPeer remotePeer : Nat)
    (cfg : Option Nat) (msg : IdentifyMsg) (ps : PeerStore) (am : AddressManager)
    (pk : Bytes) (pid : Nat)
    (hpk : msg.publicKey = some pk)
    (hid : E.peerIdFromKeys pk = some pid)
    (hne : remotePeer ≠ pid) :
    identify E localPeer remotePeer cfg msg ps am =
      (.error (.code .ERR_INVALID_PEER), ps, am) := by
  simp [identify, hpk, hid, hne]

/-- Witness for C2 at a concrete input: remote peer 2, derived peer 5. -/
theorem identify_peer_mismatch_no_writes_witness :
    identify testEnv 1 2 none { baseMsg with publicKey := some [5] } emptyStore emptyAM =
      (.error (.code .ERR_INVALID_PEER), emptyStore, emptyAM) :=
  identify_peer_mismatch_no_writes testEnv 1 2 none
    { baseMsg with publicKey := some [5] } emptyStore emptyAM [5] 5 rfl rfl (by decide)

/-- C8: if the peer id derived from the received public key equals the local
peer id, identify fails with `ERR_INVALID_PEER` (whether or not it also
differs from the connection's remote peer, the code thrown is the same), and
no state is written. -/
theorem self_identify_rejected (E : Env) (localPeer remotePeer : Nat)
    (cfg : Option Nat) (msg : IdentifyMsg) (ps : PeerStore) (am : AddressManager)
    (pk : Bytes)
    (hpk : msg.publicKey = some pk)
    (hid : E.peerIdFromKeys pk = some localPeer) :
    identify E localPeer remotePeer cfg msg ps am =
      (.error (.code .ERR_INVALID_PEER), ps, am) := by
  by_cases h : remotePeer = localPeer <;> simp [identify, hpk, hid, h]

/-- Witness for C8 at a concrete input: local peer 1 dials itself (remote
peer 1) and receives its own key. -/
theorem self_identify_rejected_witness :
    identify testEnv 1 1 none { baseMsg with publicKey := some [1] } emptyStore emptyAM =
      (.error (.code .ERR_INVALID_PEER), emptyStore, emptyAM) :=
  self_identify_rejected testEnv 1 1 none
    { baseMsg with publicKey := some [1] } emptyStore emptyAM [1] rfl rfl

/-- C10: `ERR_MISSING_PUBLIC_KEY` is raised exactly when the `publicKey`
field is absent from the decoded message; the responder sends zero-length
bytes (not an absent field) when the local host has no public key, and a
present key whose derivation fails yields an error without the
`ERR_MISSING_PUBLIC_KEY` code. -/
theorem missing_public_key_only_when_absent (E : Env) (localPeer remotePeer : Nat)
    (cfg : Option Nat) (msg : IdentifyMsg) (ps : PeerStore) (am : AddressManager) :
    ((identify E localPeer remotePeer cfg msg ps am).1 =
        .error (.code .ERR_MISSING_PUBLIC_KEY) ↔ msg.publicKey = none)
    ∧ responderPublicKey none = []
    ∧ (∀ pk, msg.publicKey = some pk → E.peerIdFromKeys pk = none →
        (identify E localPeer remotePeer cfg msg ps am).1 = .error .other) := by
  refine ⟨⟨fun h => ?_, fun h => by simp [identify, h]⟩, rfl, fun pk hpk hid => by
    simp [identify, hpk, hid]⟩
  cases hpk : msg.publicKey with
  | none => rfl
  | some pk =>
    exfalso
    simp only [identify, hpk] at h
    cases hid : E.peerIdFromKeys pk with
    | none => rw [hid] at h; simp at h
    | some id =>
      rw [hid] at h
      by_cases hr : remotePeer ≠ id
      · simp [hr] at h
      · by_cases hl : localPeer = id
        · simp [hr, hl] at h
        · simp only [hr, hl, if_true, if_false, ite_false, ite_true] at h
          rcases hspr : msg.signedPeerRecord with _ | spr
          · simp only [hspr] at h; simp at h
          · simp only [hspr] at h
            rcases hcert : E.openAndCertify spr with _ | envl
            · simp only [hcert] at h; simp at h
            · simp only [hcert] at h
              by_cases hpid : envl.peerId = id
              · rcases hacc : (consumePeerRecord E envl ps).1
                · simp [hpid, hacc] at h
                · simp [hpid, hacc] at h
              · simp [hpid] at h

/-- Witness for C10 at a concrete input: a present zero-length public key
passes the missing-key check and fails derivation with an error that carries
no code. -/
theorem missing_public_key_only_when_absent_witness :
    (identify testEnv 1 2 none { baseMsg with publicKey := some [] }
      emptyStore emptyAM).1 = .error .other :=
  (missing_public_key_only_when_absent testEnv 1 2 none
    { baseMsg with publicKey := some [] } emptyStore emptyAM).2.2 [] rfl rfl

lemma readVarint_append (hdr tail : Bytes) (len : Nat) (rest : Bytes)
    (h : readVarint hdr = some (len, rest)) :
    readVarint (hdr ++ tail) = some (len, rest ++ tail) := by
  induction hdr generalizing len rest with
  | nil => simp [readVarint] at h
  | cons b hdr2 ih =>
    by_cases hb : b < 128
    · simp only [readVarint, hb, if_true, Option.some.injEq, Prod.mk.injEq, ite_true] at h
      obtain ⟨h1, h2⟩ := h
      subst h1; subst h2
      simp [readVarint, hb]
    · cases hrec : readVarint hdr2 with
      | none => simp [readVarint, hb, hrec] at h
      | some p =>
        obtain ⟨v, rest2⟩ := p
        simp only [readVarint, hb, hrec, if_false, ite_false, Option.some.injEq,
          Prod.mk.injEq] at h
        obtain ⟨h1, h2⟩ := h
        subst h1; subst h2
        simp [readVarint, hb, ih v rest2 hrec]

/-- C7: a frame whose declared varint length exceeds
`maxIdentifyMessageSize ?? MAX_IDENTIFY_MESSAGE_SIZE` is rejected with
`ERR_MESSAGE_TOO_LARGE` whatever the payload bytes are (the outcome is
determined by the length header alone, so the payload is never read), and
the default cap is 8192 bytes. -/
theorem frame_too_large_rejected (cfg : Option Nat) (hdr payload : Bytes) (len : Nat)
    (hhdr : readVarint hdr = some (len, []))
    (hlen : len > effectiveMaxMsgSize cfg) :
    decodeOne (effectiveMaxMsgSize cfg) (hdr ++ payload) =
      .error .ERR_MESSAGE_TOO_LARGE
    ∧ MAX_IDENTIFY_MESSAGE_SIZE = 8192 := by
  refine ⟨?_, rfl⟩
  have h2 := readVarint_append hdr payload len [] hhdr
  simp only [List.nil_append] at h2
  simp [decodeOne, h2, hlen]

/-- Witness for C7 at a concrete input: declared length 9000 (LEB128 bytes
`[168, 70]`) against the default cap 8192; the three payload bytes do not
matter. -/
theorem frame_too_large_rejected_witness :
    decodeOne (effectiveMaxMsgSize none) ([168, 70] ++ [1, 2, 3]) =
      .error .ERR_MESSAGE_TOO_LARGE :=
  (frame_too_large_rejected none [168, 70] [1, 2, 3] 9000 (by decide) (by decide)).1

lemma observedAddrs_identifyLegacy_le (E : Env) (c id : Nat) (msg : IdentifyMsg)
    (ps : PeerStore) (am : AddressManager) (h : am.observedAddrs.length ≤ c) :
    (identifyLegacy E (some c) id msg ps am).2.observedAddrs.length ≤ c := by
  unfold identifyLegacy
  cases hoa : getCleanMultiaddr E msg.observedAddr with
  | none => simpa using h
  | some oa =>
    by_cases hb : am.observedAddrs.length < c
    · simp [belowCap, hb]
      omega
    · simp [belowCap, hb]
      exact h

lemma observedAddrs_identify_le (E : Env) (localPeer remotePeer c : Nat)
    (msg : IdentifyMsg) (ps : PeerStore) (am : AddressManager)
    (h : am.observedAddrs.length ≤ c) :
    (identify E localPeer remotePeer (some c) msg ps am).2.2.observedAddrs.length ≤ c := by
  rcases hpk : msg.publicKey with _ | pk
  · simpa [identify, hpk] using h
  · rcases hid : E.peerIdFromKeys pk with _ | id
    · simpa [identify, hpk, hid] using h
    · by_cases h1 : remotePeer ≠ id
      · simpa [identify, hpk, hid, h1] using h
      · by_cases h2 : localPeer = id
        · simpa [identify, hpk, hid, h1, h2] using h
        · rcases hspr : msg.signedPeerRecord with _ | spr
          · simpa [identify, hpk, hid, h1, h2, hspr] using
              observedAddrs_identifyLegacy_le E c id msg ps am h
          · rcases hcert : E.openAndCertify spr with _ | envl
            · simpa [identify, hpk, hid, h1, h2, hspr, hcert] using
                observedAddrs_identifyLegacy_le E c id msg ps am h
            · by_cases hpid : envl.peerId = id
              · rcases hacc : (consumePeerRecord E envl ps).1
                · simpa [identify, hpk, hid, h1, h2, hspr, hcert, hpid, hacc] using
                    observedAddrs_identifyLegacy_le E c id msg (consumePeerRecord E envl ps).2 am h
                · simpa [identify, hpk, hid, h1, h2, hspr, hcert, hpid, hacc] using h
              · simpa [identify, hpk, hid, h1, h2, hspr, hcert, hpid] using
                  observedAddrs_identifyLegacy_le E c id msg ps am h

/-- C9: across any sequence of identify exchanges, once the address
manager's observed-address count is at most the configured
`maxObservedAddresses`, it stays so: `addObservedAddr` fires only when the
current count is strictly below the cap, and each call appends one address. -/
theorem observed_addrs_never_exceed_cap (E : Env) (localPeer c : Nat)
    (inputs : List (Nat × IdentifyMsg)) (st : PeerStore × AddressManager)
    (h : st.2.observedAddrs.length ≤ c) :
    (runIdentifies E localPeer (some c) inputs st).2.observedAddrs.length ≤ c := by
  induction inputs generalizing st with
  | nil => simpa [runIdentifies] using h
  | cons i rest ih =>
    simp only [runIdentifies]
    exact ih _ (observedAddrs_identify_le E localPeer i.1 c i.2 st.1 st.2 h)

/-- Witness for C9 at a concrete input: cap 1, two peers each reporting a
distinct observed address; at most one is retained. -/
theorem observed_addrs_never_exceed_cap_witness :
    (runIdentifies testEnv 1 (some 1)
      [(2, { baseMsg with publicKey := some [2], observedAddr := some [4] }),
       (3, { baseMsg with publicKey := some [3], observedAddr := some [5] })]
      (emptyStore, emptyAM)).2.observedAddrs.length ≤ 1 :=
  observed_addrs_never_exceed_cap testEnv 1 1
    [(2, { baseMsg with publicKey := some [2], observedAddr := some [4] }),
     (3, { baseMsg with publicKey := some [3], observedAddr := some [5] })]
    (emptyStore, emptyAM) (by decide)

lemma addressBook_identifyLegacy_parsed (E : Env) (cfg : Option Nat) (id : Nat)
    (msg : IdentifyMsg) (ps : PeerStore) (am : AddressManager) (addrs : List Bytes)
    (h : parseListenAddrs E msg.listenAddrs = some addrs) :
    (identifyLegacy E cfg id msg ps am).1.addressBook id = addrs := by
  simp [identifyLegacy, h, addressBook_applyMetadata, addressBook_setProtocols,
    addressBook_setAddrs_same]

lemma addressBook_identifyLegacy_unparsed (E : Env) (cfg : Option Nat) (id : Nat)
    (msg : IdentifyMsg) (ps : PeerStore) (am : AddressManager)
    (h : parseListenAddrs E msg.listenAddrs = none) :
    (identifyLegacy E cfg id msg ps am).1.addressBook = ps.addressBook := by
  simp [identifyLegacy, h, addressBook_applyMetadata, addressBook_setProtocols]

/-- C1: when the message carries a signed peer record that certifies, whose
envelope peer id equals the derived remote peer id, and which the consume
policy accepts, the address book entry for the peer becomes the envelope's
addresses (the envelope wins, `listenAddrs` is not applied); in every other
case — no envelope, certification failure, envelope peer-id mismatch (whose
thrown `ERR_INVALID_PEER` is caught and demoted to the legacy path), or
consume rejected — the decoded `listenAddrs` (all parseable here; the
unparseable case is the subject of the claim about skipping entries) are set
on the address book verbatim. -/
theorem envelope_wins_or_legacy (E : Env) (localPeer remotePeer : Nat)
    (cfg : Option Nat) (msg : IdentifyMsg) (ps : PeerStore) (am : AddressManager)
    (pk : Bytes)
    (hpk : msg.publicKey = some pk)
    (hid : E.peerIdFromKeys pk = some remotePeer)
    (hnl : localPeer ≠ remotePeer) :
    (∀ spr envl, msg.signedPeerRecord = some spr →
      E.openAndCertify spr = some envl →
      envl.peerId = remotePeer →
      E.acceptRecord envl ps = true →
      (identify E localPeer remotePeer cfg msg ps am).2.1.addressBook remotePeer =
        envl.addrs)
    ∧ (∀ addrs, parseListenAddrs E msg.listenAddrs = some addrs →
        (msg.signedPeerRecord = none ∨
          ∃ spr, msg.signedPeerRecord = some spr ∧
            (E.openAndCertify spr = none ∨
              ∃ envl, E.openAndCertify spr = some envl ∧
                (envl.peerId ≠ remotePeer ∨ E.acceptRecord envl ps = false))) →
        (identify E localPeer remotePeer cfg msg ps am).2.1.addressBook remotePeer =
          addrs) := by
  constructor
  · intro spr envl hspr hcert hpid hacc
    have hcons : consumePeerRecord E envl ps =
        (true, ps.setAddrs envl.peerId envl.addrs) := by
      simp [consumePeerRecord, hacc]
    simp [identify, hpk, hid, hnl, hspr, hcert, hpid, hcons,
      addressBook_applyMetadata, addressBook_setProtocols, addressBook_setAddrs_same]
  · intro addrs haddrs hcase
    rcases hcase with hspr | ⟨spr, hspr, hrest⟩
    · simp only [identify, hpk, hid, hspr]
      simp [hnl, addressBook_identifyLegacy_parsed E cfg remotePeer msg ps am addrs haddrs]
    · rcases hrest with hcert | ⟨envl, hcert, hrest⟩
      · simp only [identify, hpk, hid, hspr, hcert]
        simp [hnl, addressBook_identifyLegacy_parsed E cfg remotePeer msg ps am addrs haddrs]
      · rcases hrest with hpid | hacc
        · simp only [identify, hpk, hid, hspr, hcert]
          simp [hnl, hpid,
            addressBook_identifyLegacy_parsed E cfg remotePeer msg ps am addrs haddrs]
        · have hcons : consumePeerRecord E envl ps = (false, ps) := by
            simp [consumePeerRecord, hacc]
          simp only [identify, hpk, hid, hspr, hcert, hcons]
          by_cases hpid : envl.peerId = remotePeer
          · simp [hnl, hpid, hcons,
              addressBook_identifyLegacy_parsed E cfg remotePeer msg ps am addrs haddrs]
          · simp [hnl, hpid,
              addressBook_identifyLegacy_parsed E cfg remotePeer msg ps am addrs haddrs]

/-- Witness for C1 at a concrete input: peer 2's envelope (seq 1) certifies
and is accepted, so the address book holds the envelope's address. -/
theorem envelope_wins_or_legacy_witness :
    (identify testEnv 1 2 none
      { baseMsg with publicKey := some [2], signedPeerRecord := some [7],
                     listenAddrs := [[1]] }
      emptyStore emptyAM).2.1.addressBook 2 = [[3]] :=
  (envelope_wins_or_legacy testEnv 1 2 none
    { baseMsg with publicKey := some [2], signedPeerRecord := some [7],
                   listenAddrs := [[1]] }
    emptyStore emptyAM [2] rfl rfl (by decide)).1
    [7] { peerId := 2, seq := 1, addrs := [[3]] } rfl rfl rfl rfl

/-- C3: the push responder never compares the envelope's peer id with the
connection's remote peer; the only protection is that `consumePeerRecord`
stores the record under the envelope's own peer id. Hence a certified
envelope whose peer id differs from the remote peer is never applied to the
address book under the remote peer's entry: if consumed, the remote peer's
entry is untouched (the record lands under the envelope's peer id); if
rejected, the remote entry receives the legacy `listenAddrs`. -/
theorem push_mismatched_envelope_not_applied (E : Env) (localPeer remotePeer : Nat)
    (msg : IdentifyMsg) (ps : PeerStore) (spr : Bytes) (envl : Envelope)
    (hlp : localPeer ≠ remotePeer)
    (hspr : msg.signedPeerRecord = some spr)
    (hcert : E.openAndCertify spr = some envl)
    (hpid : envl.peerId ≠ remotePeer) :
    (E.acceptRecord envl ps = true →
      (handlePush E localPeer remotePeer msg ps).addressBook remotePeer =
        ps.addressBook remotePeer
      ∧ (handlePush E localPeer remotePeer msg ps).addressBook envl.peerId = envl.addrs)
    ∧ (E.acceptRecord envl ps = false → ∀ addrs,
        parseListenAddrs E msg.listenAddrs = some addrs →
        (handlePush E localPeer remotePeer msg ps).addressBook remotePeer = addrs) := by
  constructor
  · intro hacc
    have hcons : consumePeerRecord E envl ps = (true, ps.setAddrs envl.peerId envl.addrs) := by
      simp [consumePeerRecord, hacc]
    constructor
    · simp [handlePush, hlp, hspr, hcert, hcons, addressBook_setProtocols,
        addressBook_setAddrs_other ps envl.peerId remotePeer envl.addrs (Ne.symm hpid)]
    · simp [handlePush, hlp, hspr, hcert, hcons, addressBook_setProtocols,
        addressBook_setAddrs_same]
  · intro hacc addrs haddrs
    have hcons : consumePeerRecord E envl ps = (false, ps) := by
      simp [consumePeerRecord, hacc]
    simp [handlePush, hlp, hspr, hcert, hcons, pushLegacy, haddrs,
      addressBook_setProtocols, addressBook_setAddrs_same]

/-- Witness for C3 at a concrete input: a certified envelope for peer 5
pushed over a connection from peer 2 leaves peer 2's address entry unchanged
and lands under peer 5. -/
theorem push_mismatched_envelope_not_applied_witness :
    (handlePush testEnv 1 2 { baseMsg with signedPeerRecord := some [8] }
      emptyStore).addressBook 2 = emptyStore.addressBook 2
    ∧ (handlePush testEnv 1 2 { baseMsg with signedPeerRecord := some [8] }
        emptyStore).addressBook 5 = [[3]] :=
  (push_mismatched_envelope_not_applied testEnv 1 2
    { baseMsg with signedPeerRecord := some [8] } emptyStore [8]
    { peerId := 5, seq := 1, addrs := [[3]] }
    (by decide) rfl rfl (by decide)).1 rfl

/-- An identify message whose envelope (`[7]`, for peer 2, seq 1) certifies
and is accepted, and which also carries a parseable observed address. -/
def msgEnvelopeAndObserved : IdentifyMsg :=
  { baseMsg with
    publicKey := some [2]
    signedPeerRecord := some [7]
    observedAddr := some [4] }

/-- Counterexample to C4: an identify exchange that completes without error,
whose envelope is accepted (the address book holds the envelope's address),
whose observed address parses, and whose manager count (0) is below the cap
(10) — yet the observed address is not handed to the address manager,
because `identify` returns as soon as the envelope is consumed. -/
theorem observed_addr_skipped_on_envelope_cex :
    (identify testEnv 1 2 (some 10) msgEnvelopeAndObserved emptyStore emptyAM).1 = .ok ()
    ∧ (identify testEnv 1 2 (some 10) msgEnvelopeAndObserved emptyStore
        emptyAM).2.1.addressBook 2 = [[3]]
    ∧ getCleanMultiaddr testEnv msgEnvelopeAndObserved.observedAddr = some [4]
    ∧ emptyAM.observedAddrs.length < 10
    ∧ (identify testEnv 1 2 (some 10) msgEnvelopeAndObserved emptyStore
        emptyAM).2.2.observedAddrs = [] := by
  refine ⟨rfl, by decide, by decide, by decide, rfl⟩

/-- C4 amended: the observed address is offered to the address manager only
when the exchange falls back to the legacy path; when a signed peer record
is accepted, `identify` returns early and the address manager is untouched.
On the legacy path (here: no signed peer record) a parseable observed
address is appended whenever the count is below the cap. -/
theorem observed_addr_only_on_legacy_path (E : Env) (localPeer remotePeer : Nat)
    (cfg : Option Nat) (msg : IdentifyMsg) (ps : PeerStore) (am : AddressManager)
    (pk : Bytes)
    (hpk : msg.publicKey = some pk)
    (hid : E.peerIdFromKeys pk = some remotePeer)
    (hnl : localPeer ≠ remotePeer) :
    (∀ spr envl, msg.signedPeerRecord = some spr →
      E.openAndCertify spr = some envl →
      envl.peerId = remotePeer →
      E.acceptRecord envl ps = true →
      (identify E localPeer remotePeer cfg msg ps am).2.2 = am)
    ∧ (∀ oa, msg.signedPeerRecord = none →
        getCleanMultiaddr E msg.observedAddr = some oa →
        belowCap cfg am.observedAddrs.length = true →
        (identify E localPeer remotePeer cfg msg ps am).2.2.observedAddrs =
          am.observedAddrs ++ [oa]) := by
  constructor
  · intro spr envl hspr hcert hpid hacc
    have hcons : consumePeerRecord E envl ps =
        (true, ps.setAddrs envl.peerId envl.addrs) := by
      simp [consumePeerRecord, hacc]
    simp [identify, hpk, hid, hnl, hspr, hcert, hpid, hcons]
  · intro oa hspr hoa hcap
    simp [identify, hpk, hid, hnl, hspr, identifyLegacy, hoa, hcap]

/-- Witness for the amended C4 at concrete inputs: with the accepted
envelope the manager is unchanged; without an envelope the observed address
is appended. -/
theorem observed_addr_only_on_legacy_path_witness :
    (identify testEnv 1 2 (some 10) msgEnvelopeAndObserved emptyStore emptyAM).2.2 = emptyAM
    ∧ (identify testEnv 1 2 (some 10)
        { baseMsg with publicKey := some [2], observedAddr := some [4] }
        emptyStore emptyAM).2.2.observedAddrs = emptyAM.observedAddrs ++ [[4]] :=
  ⟨(observed_addr_only_on_legacy_path testEnv 1 2 (some 10) msgEnvelopeAndObserved
      emptyStore emptyAM [2] rfl rfl (by decide)).1
      [7] { peerId := 2, seq := 1, addrs := [[3]] } rfl rfl rfl rfl,
   (observed_addr_only_on_legacy_path testEnv 1 2 (some 10)
      { baseMsg with publicKey := some [2], observedAddr := some [4] }
      emptyStore emptyAM [2] rfl rfl (by decide)).2
      [4] rfl rfl rfl⟩

/-- The service state after constructing, starting and stopping the service
with the default "ipfs" protocol strings. -/
def serviceAfterStop : ServiceState :=
  stopService "ipfs" "1.0.0" "1.0.0"
    (startService "ipfs" "1.0.0" "1.0.0" constructService)

/-- Counterexample to C5: after `stop()` the constructor's `peer:connect`
listener is still subscribed (nothing removes it), so a subsequent
connection-established event still triggers an identify exchange — even
though both protocol strings are indeed unregistered. -/
theorem stop_still_triggers_identify_cex :
    triggersIdentify serviceAfterStop = true
    ∧ serviceAfterStop.registered = [] := by
  constructor
  · rfl
  · decide

/-- C5 amended: after `stop()` neither protocol string remains registered,
and a local address or protocol change triggers no push (`pushToPeerStore`
bails out because the service is no longer started) — but the constructor's
event listeners are never removed, so a connection-established event still
triggers an identify exchange whenever the `peer:connect` listener is
installed. -/
theorem stop_unregisters_but_listeners_remain (pfx idVersion pushVersion : String)
    (s : ServiceState) (localPeer evtPeer : Nat) :
    identifyProtocolStr pfx idVersion ∉ (stopService pfx idVersion pushVersion s).registered
    ∧ identifyPushProtocolStr pfx pushVersion ∉
        (stopService pfx idVersion pushVersion s).registered
    ∧ triggersPushOnMultiaddrsChange (stopService pfx idVersion pushVersion s)
        localPeer evtPeer = false
    ∧ triggersPushOnProtocolsChange (stopService pfx idVersion pushVersion s)
        localPeer evtPeer = false
    ∧ triggersIdentify (stopService pfx idVersion pushVersion s) = s.hasConnectListener := by
  refine ⟨?_, ?_, ?_, ?_, rfl⟩
  · simp [stopService, List.mem_filter]
  · simp [stopService, List.mem_filter]
  · simp [triggersPushOnMultiaddrsChange, stopService]
  · simp [triggersPushOnProtocolsChange, stopService]

/-- A legacy identify message whose `listenAddrs` mixes one parseable entry
(`[1]`) with one unparseable entry (`[9, 9]`). -/
def msgMixedAddrs : IdentifyMsg :=
  { baseMsg with
    publicKey := some [2]
    listenAddrs := [[1], [9, 9]] }

/-- Counterexample to C6: with one parseable and one unparseable entry, the
parseable entry `[1]` is not applied either — the whole address-book update
is skipped (the `map` throws inside the single try/catch), leaving the
address book empty. -/
theorem unparseable_addr_skips_all_cex :
    (identify testEnv 1 2 none msgMixedAddrs emptyStore emptyAM).2.1.addressBook 2 = []
    ∧ testEnv.parseMA [1] = some [1]
    ∧ testEnv.parseMA [9, 9] = none := by
  refine ⟨by decide, by decide, by decide⟩

/-- C6 amended: if `listenAddrs` contains any unparseable entry, the entire
address-book update is skipped (no entry is applied, the previous addresses
remain) — on the legacy path of identify and of the push responder alike. -/
theorem unparseable_addr_skips_whole_update (E : Env) (localPeer remotePeer : Nat)
    (cfg : Option Nat) (msg : IdentifyMsg) (ps : PeerStore) (am : AddressManager)
    (pk : Bytes)
    (hpk : msg.publicKey = some pk)
    (hid : E.peerIdFromKeys pk = some remotePeer)
    (hnl : localPeer ≠ remotePeer)
    (hspr : msg.signedPeerRecord = none)
    (hbad : parseListenAddrs E msg.listenAddrs = none) :
    (identify E localPeer remotePeer cfg msg ps am).2.1.addressBook = ps.addressBook
    ∧ (handlePush E localPeer remotePeer msg ps).addressBook = ps.addressBook := by
  constructor
  · simp [identify, hpk, hid, hnl, hspr,
      addressBook_identifyLegacy_unparsed E cfg remotePeer msg ps am hbad]
  · simp [handlePush, hnl, hspr, pushLegacy, hbad, addressBook_setProtocols]

/-- Witness for the amended C6 at a concrete input: the mixed list leaves
the address book exactly as it was. -/
theorem unparseable_addr_skips_whole_update_witness :
    (identify testEnv 1 2 none msgMixedAddrs emptyStore emptyAM).2.1.addressBook =
      emptyStore.addressBook
    ∧ (handlePush testEnv 1 2 msgMixedAddrs emptyStore).addressBook =
      emptyStore.addressBook :=
  unparseable_addr_skips_whole_update testEnv 1 2 none msgMixedAddrs emptyStore emptyAM
    [2] rfl rfl (by decide) rfl (by decide)

end Identify
